import Mathlib

/-!
Verification of the SFL narrative context engineer's core pipeline:
the prompt compiler (`compileSFLPrompt`), the attachment ingestion
routing (`GeminiService.processFile` and its per-format handlers), the
model-listing fallback (`listModels`), the attachment settlement logic of
the upload handler, and the persisted store's `updatePrompt` /
`deletePrompt` operations.

Strings are embedded as Lean `String` (a wrapper around `List Char`);
JavaScript string operations that matter here (template concatenation,
`trim`, `split(/\r?\n/)`, `Array.join`, truthiness of strings) are given
explicit executable models.  The host platform's `JSON.parse` /
`JSON.stringify` pair and the remote Gemini provider are external
capabilities, modelled as explicit parameters (`JsonEngine`, `Gateway`),
so every repository-owned branch is embedded faithfully.
-/

/-! ## Data model (src/types.ts) -/

/-- The `Attachment.status` union from src/types.ts:
`'pending' | 'processing' | 'done' | 'error'`. -/
inductive AStatus where
  | pending
  | processing
  | done
  | error
deriving DecidableEq, Repr

/-- Structure `SFLField` from src/types.ts. -/
structure SFLField where
  topic : String
  taskType : String
  domainSpecifics : String
  keywords : String
deriving DecidableEq, Repr

/-- Structure `SFLTenor` from src/types.ts. -/
structure SFLTenor where
  aiPersona : String
  targetAudience : List String
  desiredTone : String
  interpersonalStance : String
deriving DecidableEq, Repr

/-- Structure `SFLMode` from src/types.ts. -/
structure SFLMode where
  outputFormat : String
  rhetoricalStructure : String
  lengthConstraint : String
  textualDirectives : String
deriving DecidableEq, Repr

/-- Structure `Attachment` from src/types.ts.  The TypeScript `type` field is a union
of string literals; it is embedded as the underlying `String`.  The optional
fields `analysis` and `errorMessage` become `Option String`. -/
structure Attachment where
  id : String
  name : String
  type : String
  mimeType : String
  content : String
  analysis : Option String
  status : AStatus
  errorMessage : Option String
deriving DecidableEq, Repr

/-! ## JavaScript string-operation models -/

/-- The whitespace characters relevant to `String.prototype.trim` for the
strings this program builds (space, tab, LF, CR, FF, VT). -/
def isJsWs (c : Char) : Bool :=
  c = ' ' || c = '\t' || c = '\n' || c = '\r' || c = '\x0b' || c = '\x0c'

/-- Strip leading JS whitespace. -/
def trimLeftChars (s : List Char) : List Char := s.dropWhile isJsWs

/-- Strip trailing JS whitespace. -/
def trimRightChars (s : List Char) : List Char :=
  (s.reverse.dropWhile isJsWs).reverse

/-- Model of JavaScript `String.prototype.trim`. -/
def jsTrim (s : String) : String := String.mk (trimRightChars (trimLeftChars s.data))

/-- Model of JavaScript `Array.prototype.join(sep)`. -/
def jsJoin (sep : String) : List String → String
  | [] => ""
  | [x] => x
  | x :: y :: xs => x ++ sep ++ jsJoin sep (y :: xs)

/-- JS string truthiness applied with a default: `s || d`. -/
def jsOrS (s d : String) : String := if s = "" then d else s

/-- JS truthiness of a possibly-`undefined` string applied with a default:
`x || d` where `x : string | undefined`. -/
def jsOr (x : Option String) (d : String) : String :=
  match x with
  | some s => jsOrS s d
  | none => d

/-- Model of JavaScript `String.prototype.toLowerCase` (ASCII case map). -/
def jsToLower (s : String) : String := String.mk (s.data.map Char.toLower)

/-- Model of JavaScript `String.prototype.endsWith`. -/
def jsEndsWith (s pat : String) : Bool := pat.data.isSuffixOf s.data

/-- Model of JavaScript `String.prototype.startsWith`. -/
def jsStartsWith (s pat : String) : Bool := pat.data.isPrefixOf s.data

/-! ## The prompt compiler (src/services/geminiService.ts, compileSFLPrompt) -/

/-- The filter of `compileSFLPrompt`:
`a.status === 'done' && a.analysis` (truthiness: the analysis is present
and non-empty). -/
def qualifies (a : Attachment) : Bool :=
  decide (a.status = AStatus.done) && !(a.analysis.getD "" = "")

/-- One attachment's labelled block:
`` `\n### Attachment: ${a.name} (${a.type})\n${a.analysis}` ``.
The filter guarantees `a.analysis` is a present, non-empty string, so the
interpolation reads it with `getD ""`. -/
def blockOf (a : Attachment) : String :=
  "\n### Attachment: " ++ a.name ++ " (" ++ a.type ++ ")\n" ++ a.analysis.getD ""

/-- The `attachmentContext` constant of `compileSFLPrompt`: filter to the
qualifying attachments, map each to its block, join with newlines. -/
def attachmentContext (attachments : List Attachment) : String :=
  jsJoin "\n" ((attachments.filter qualifies).map blockOf)

/-- Function `compileSFLPrompt` from src/services/geminiService.ts: the fixed template
interpolating the twelve facet fields, with the reference-material section
present exactly when `attachmentContext` is truthy (non-empty), the whole
trimmed.  (The TypeScript default parameter `attachments = []` is made an
ordinary required argument.) -/
def compileSFLPrompt (field : SFLField) (tenor : SFLTenor) (mode : SFLMode)
    (attachments : List Attachment) : String :=
  jsTrim
    ("\n# CONTEXT (Field)\n**Topic:** " ++ field.topic
      ++ "\n**Task:** " ++ field.taskType
      ++ "\n**Domain:** " ++ field.domainSpecifics
      ++ "\n**Keywords:** " ++ field.keywords
      ++ "\n\n"
      ++ (if attachmentContext attachments = "" then ""
          else "\n# REFERENCE MATERIAL\n" ++ attachmentContext attachments ++ "\n")
      ++ "\n\n# PERSONA & AUDIENCE (Tenor)\n**Role:** " ++ tenor.aiPersona
      ++ "\n**Audience:** " ++ jsJoin ", " tenor.targetAudience
      ++ "\n**Tone:** " ++ tenor.desiredTone
      ++ "\n**Stance:** " ++ tenor.interpersonalStance
      ++ "\n\n# FORMAT & STRUCTURE (Mode)\n**Format:** " ++ mode.outputFormat
      ++ "\n**Structure:** " ++ mode.rhetoricalStructure
      ++ "\n**Length:** " ++ mode.lengthConstraint
      ++ "\n**Directives:** " ++ mode.textualDirectives
      ++ "\n\n---\n**INSTRUCTION:**\nBased on the framework and reference material above, please execute the task.\n")

/-! ## C1: non-done / empty-analysis attachments never reach the output -/

lemma qualifies_false_of (a : Attachment)
    (h : a.status ≠ AStatus.done ∨ a.analysis.getD "" = "") :
    qualifies a = false := by
  unfold qualifies
  rcases h with h | h
  · simp [h]
  · simp [h]

/-- C1.  An attachment whose status is not `done`, or whose analysis is
absent or empty, contributes nothing to `compileSFLPrompt`: deleting it from
the attachment list (wherever it sits) leaves the compiled output unchanged,
even if it carries a stale `analysis` value. -/
theorem compile_excludes_non_done
    (field : SFLField) (tenor : SFLTenor) (mode : SFLMode)
    (pre post : List Attachment) (a : Attachment)
    (h : a.status ≠ AStatus.done ∨ a.analysis.getD "" = "") :
    compileSFLPrompt field tenor mode (pre ++ a :: post)
      = compileSFLPrompt field tenor mode (pre ++ post) := by
  have hctx : attachmentContext (pre ++ a :: post) = attachmentContext (pre ++ post) := by
    unfold attachmentContext
    rw [List.filter_append, List.filter_append, List.filter_cons,
      qualifies_false_of a h]
    simp
  unfold compileSFLPrompt
  rw [hctx]

/-- Witness for C1 at a concrete input: an attachment in status `error`
carrying a stale analysis is not part of the compiled prompt. -/
theorem compile_excludes_non_done_witness :
    compileSFLPrompt ⟨"cats", "", "", ""⟩
        ⟨"Helpful Assistant", ["kids"], "Warm", "Supportive"⟩
        ⟨"Markdown", "Standard", "Moderate", ""⟩
        [⟨"i1", "notes.txt", "text", "text/plain", "", some "A note", AStatus.done, none⟩,
         ⟨"i2", "x.mp3", "audio", "audio/mp3", "", some "stale", AStatus.error, some "failed"⟩]
      = compileSFLPrompt ⟨"cats", "", "", ""⟩
        ⟨"Helpful Assistant", ["kids"], "Warm", "Supportive"⟩
        ⟨"Markdown", "Standard", "Moderate", ""⟩
        [⟨"i1", "notes.txt", "text", "text/plain", "", some "A note", AStatus.done, none⟩] :=
  compile_excludes_non_done ⟨"cats", "", "", ""⟩
    ⟨"Helpful Assistant", ["kids"], "Warm", "Supportive"⟩
    ⟨"Markdown", "Standard", "Moderate", ""⟩
    [⟨"i1", "notes.txt", "text", "text/plain", "", some "A note", AStatus.done, none⟩]
    []
    ⟨"i2", "x.mp3", "audio", "audio/mp3", "", some "stale", AStatus.error, some "failed"⟩
    (Or.inl (by decide))

/-! ## Line view of strings, for reasoning about headings -/

/-- Prepend a character to the first line of a line list. -/
def pushHead (c : Char) : List (List Char) → List (List Char)
  | [] => [[c]]
  | l :: ls => (c :: l) :: ls

/-- Split a character list at every newline (the list of lines; always
non-empty). -/
def splitOnNl : List Char → List (List Char)
  | [] => [[]]
  | c :: cs => if c = '\n' then [] :: splitOnNl cs else pushHead c (splitOnNl cs)

lemma splitOnNl_ne_nil (s : List Char) : splitOnNl s ≠ [] := by
  induction s with
  | nil => simp [splitOnNl]
  | cons c cs ih =>
    by_cases h : c = '\n'
    · simp [splitOnNl, h]
    · simp only [splitOnNl, h, if_false]
      cases hs : splitOnNl cs with
      | nil => exact absurd hs ih
      | cons l ls => simp [pushHead]

lemma splitOnNl_append_cons (a s : List Char) :
    splitOnNl (a ++ '\n' :: s) = splitOnNl a ++ splitOnNl s := by
  induction a with
  | nil => simp [splitOnNl]
  | cons c a ih =>
    by_cases h : c = '\n'
    · simp [splitOnNl, h, ih]
    · have hstep : splitOnNl (c :: (a ++ '\n' :: s)) = pushHead c (splitOnNl (a ++ '\n' :: s)) := by
        simp [splitOnNl, h]
      cases ha : splitOnNl a with
      | nil => exact absurd ha (splitOnNl_ne_nil a)
      | cons l ls =>
        rw [List.cons_append, hstep, ih, ha]
        simp only [splitOnNl, h, if_false, pushHead, ha]
        rfl

lemma splitOnNl_nlFree (a : List Char) (h : ∀ c ∈ a, ¬ c = '\n') :
    splitOnNl a = [a] := by
  induction a with
  | nil => rfl
  | cons c a ih =>
    have hc : ¬ c = '\n' := h c (by simp)
    have ha := ih (fun x hx => h x (by simp [hx]))
    simp [splitOnNl, hc, ha, pushHead]

/-- The markdown heading line introducing the reference-material section. -/
def headingLine : List Char := "# REFERENCE MATERIAL".data

/-- How many lines of a character list are exactly the reference-material
heading. -/
def countH (s : List Char) : Nat := List.count headingLine (splitOnNl s)

/-- How many lines of a string are exactly `# REFERENCE MATERIAL`. -/
def headingCount (s : String) : Nat := countH s.data

lemma countH_append_nl (a s : List Char) :
    countH (a ++ '\n' :: s) = countH a + countH s := by
  unfold countH
  rw [splitOnNl_append_cons, List.count_append]

lemma countH_nil : countH [] = 0 := by decide

lemma countH_eq_zero_of (a : List Char) (h1 : ∀ c ∈ a, ¬ c = '\n')
    (h2 : a ≠ headingLine) : countH a = 0 := by
  unfold countH
  rw [splitOnNl_nlFree a h1]
  simp [List.count_cons, h2]

lemma countH_headingLine : countH headingLine = 1 := by decide

lemma ne_of_headI {a b : List Char} (h : a.headI ≠ b.headI) : a ≠ b := by
  intro he; exact h (by rw [he])

lemma ne_of_drop_one {a b : List Char} (h : (a.drop 1).headI ≠ (b.drop 1).headI) :
    a ≠ b := by
  intro he; exact h (by rw [he])

/-- Join a list of (possibly multi-line) chunks with single newlines. -/
def segJoin : List (List Char) → List Char
  | [] => []
  | [a] => a
  | a :: b :: r => a ++ '\n' :: segJoin (b :: r)

lemma countH_segJoin (l : List (List Char)) :
    countH (segJoin l) = (l.map countH).sum := by
  induction l with
  | nil => simpa [segJoin] using countH_nil
  | cons a r ih =>
    cases r with
    | nil => simp [segJoin]
    | cons b r2 => simp [segJoin, countH_append_nl, ih]

/-! ## Trim lemmas -/

lemma jsTrim_data (s : String) :
    (jsTrim s).data = trimRightChars (trimLeftChars s.data) := rfl

lemma trimL_cons_nl (x : List Char) :
    trimLeftChars ('\n' :: x) = trimLeftChars x := by
  have h : isJsWs '\n' = true := by decide
  simp [trimLeftChars, List.dropWhile_cons, h]

lemma trimL_eq_self (x : List Char) (hne : x ≠ []) (h : isJsWs x.headI = false) :
    trimLeftChars x = x := by
  cases x with
  | nil => exact absurd rfl hne
  | cons c r =>
    simp only [List.headI] at h
    simp [trimLeftChars, List.dropWhile_cons, h]

lemma trimR_append_ws (a : List Char) (c : Char) (h : isJsWs c = true) :
    trimRightChars (a ++ [c]) = trimRightChars a := by
  simp [trimRightChars, List.reverse_append, List.dropWhile_cons, h]

lemma trimR_append_not_ws (a : List Char) (c : Char) (h : isJsWs c = false) :
    trimRightChars (a ++ [c]) = a ++ [c] := by
  simp [trimRightChars, List.reverse_append, List.dropWhile_cons, h]

lemma segJoin_last_split (l : List (List Char)) (x : List Char) (hl : l ≠ []) :
    segJoin (l ++ [x]) = segJoin l ++ '\n' :: x := by
  induction l with
  | nil => exact absurd rfl hl
  | cons a r ih =>
    cases r with
    | nil => simp [segJoin]
    | cons b r2 =>
      have h2 := ih (by simp)
      rw [List.cons_append] at h2
      simp only [List.cons_append, segJoin, List.append_eq]
      rw [h2]
      simp [List.append_assoc]

/-! ## Segment decomposition of the compiled prompt -/

/-- The closing instruction line of the template. -/
def lastSeg : List Char :=
  ("Based on the framework and reference material above, please execute the task." : String).data

/-- The facet lines of the `# CONTEXT (Field)` section. -/
def frontSegs (f : SFLField) : List (List Char) :=
  [("# CONTEXT (Field)" : String).data,
   ("**Topic:** " : String).data ++ f.topic.data,
   ("**Task:** " : String).data ++ f.taskType.data,
   ("**Domain:** " : String).data ++ f.domainSpecifics.data,
   ("**Keywords:** " : String).data ++ f.keywords.data]

/-- The lines from the Tenor section to the `**INSTRUCTION:**` marker. -/
def backSegs (t : SFLTenor) (m : SFLMode) : List (List Char) :=
  [("# PERSONA & AUDIENCE (Tenor)" : String).data,
   ("**Role:** " : String).data ++ t.aiPersona.data,
   ("**Audience:** " : String).data ++ (jsJoin ", " t.targetAudience).data,
   ("**Tone:** " : String).data ++ t.desiredTone.data,
   ("**Stance:** " : String).data ++ t.interpersonalStance.data,
   [],
   ("# FORMAT & STRUCTURE (Mode)" : String).data,
   ("**Format:** " : String).data ++ m.outputFormat.data,
   ("**Structure:** " : String).data ++ m.rhetoricalStructure.data,
   ("**Length:** " : String).data ++ m.lengthConstraint.data,
   ("**Directives:** " : String).data ++ m.textualDirectives.data,
   [],
   ("---" : String).data,
   ("**INSTRUCTION:**" : String).data]

/-- All lines before the closing instruction, when no attachment qualifies. -/
def initSegsNoQual (f : SFLField) (t : SFLTenor) (m : SFLMode) : List (List Char) :=
  frontSegs f ++ ([[], [], []] ++ backSegs t m)

/-- All lines before the closing instruction, when the reference-material
section is present with context chunk `ctx`. -/
def initSegsQual (f : SFLField) (t : SFLTenor) (m : SFLMode) (ctx : List Char) :
    List (List Char) :=
  frontSegs f ++ ([[], [], headingLine, ctx, [], []] ++ backSegs t m)

lemma trim_chain (y A L : List Char)
    (hy : y = '\n' :: ((A ++ '\n' :: L) ++ ['\n']))
    (hAhead : isJsWs ((A ++ '\n' :: L) ++ ['\n']).headI = false)
    (hlast : ∃ F c, L = F ++ [c] ∧ isJsWs c = false) :
    trimRightChars (trimLeftChars y) = A ++ '\n' :: L := by
  subst hy
  rw [trimL_cons_nl]
  rw [trimL_eq_self _ (by simp) hAhead]
  rw [trimR_append_ws _ '\n' (by decide)]
  obtain ⟨F, c, hFc, hc⟩ := hlast
  subst hFc
  have hassoc : A ++ '\n' :: (F ++ [c]) = (A ++ '\n' :: F) ++ [c] := by
    simp [List.append_assoc]
  rw [hassoc, trimR_append_not_ws _ _ hc, ← hassoc]

set_option maxRecDepth 8192 in
lemma compile_data_noQual (f : SFLField) (t : SFLTenor) (m : SFLMode)
    (atts : List Attachment) (h : attachmentContext atts = "") :
    (compileSFLPrompt f t m atts).data
      = segJoin (initSegsNoQual f t m) ++ '\n' :: lastSeg := by
  have hL1 : ("\n# CONTEXT (Field)\n**Topic:** " : String).data
      = ('\n' :: ("# CONTEXT (Field)" : String).data)
        ++ ('\n' :: ("**Topic:** " : String).data) := rfl
  have hL2 : ("\n**Task:** " : String).data = '\n' :: ("**Task:** " : String).data := rfl
  have hL3 : ("\n**Domain:** " : String).data = '\n' :: ("**Domain:** " : String).data := rfl
  have hL4 : ("\n**Keywords:** " : String).data = '\n' :: ("**Keywords:** " : String).data := rfl
  have hL5 : ("\n\n" : String).data = ['\n', '\n'] := rfl
  have hL6 : ("" : String).data = ([] : List Char) := rfl
  have hL7 : ("\n\n# PERSONA & AUDIENCE (Tenor)\n**Role:** " : String).data
      = ('\n' :: '\n' :: ("# PERSONA & AUDIENCE (Tenor)" : String).data)
        ++ ('\n' :: ("**Role:** " : String).data) := rfl
  have hL8 : ("\n**Audience:** " : String).data = '\n' :: ("**Audience:** " : String).data := rfl
  have hL9 : ("\n**Tone:** " : String).data = '\n' :: ("**Tone:** " : String).data := rfl
  have hL10 : ("\n**Stance:** " : String).data = '\n' :: ("**Stance:** " : String).data := rfl
  have hL11 : ("\n\n# FORMAT & STRUCTURE (Mode)\n**Format:** " : String).data
      = ('\n' :: '\n' :: ("# FORMAT & STRUCTURE (Mode)" : String).data)
        ++ ('\n' :: ("**Format:** " : String).data) := rfl
  have hL12 : ("\n**Structure:** " : String).data = '\n' :: ("**Structure:** " : String).data := rfl
  have hL13 : ("\n**Length:** " : String).data = '\n' :: ("**Length:** " : String).data := rfl
  have hL14 : ("\n**Directives:** " : String).data = '\n' :: ("**Directives:** " : String).data := rfl
  have hL15 : ("\n\n---\n**INSTRUCTION:**\nBased on the framework and reference material above, please execute the task.\n" : String).data
      = ('\n' :: '\n' :: ("---" : String).data)
        ++ (('\n' :: ("**INSTRUCTION:**" : String).data)
          ++ ('\n' :: (lastSeg ++ ['\n']))) := rfl
  unfold compileSFLPrompt
  rw [h, if_pos rfl, jsTrim_data]
  apply trim_chain
  · simp only [String.data_append, hL1, hL2, hL3, hL4, hL5, hL6, hL7, hL8, hL9,
      hL10, hL11, hL12, hL13, hL14, hL15, initSegsNoQual, frontSegs, backSegs,
      segJoin, List.cons_append, List.nil_append, List.append_assoc]
    rfl
  · exact (by decide : isJsWs '#' = false)
  · exact ⟨("Based on the framework and reference material above, please execute the task" : String).data,
      '.', rfl, by decide⟩

set_option maxRecDepth 8192 in
lemma compile_data_qual (f : SFLField) (t : SFLTenor) (m : SFLMode)
    (atts : List Attachment) (h : attachmentContext atts ≠ "") :
    (compileSFLPrompt f t m atts).data
      = segJoin (initSegsQual f t m (attachmentContext atts).data) ++ '\n' :: lastSeg := by
  have hL1 : ("\n# CONTEXT (Field)\n**Topic:** " : String).data
      = ('\n' :: ("# CONTEXT (Field)" : String).data)
        ++ ('\n' :: ("**Topic:** " : String).data) := rfl
  have hL2 : ("\n**Task:** " : String).data = '\n' :: ("**Task:** " : String).data := rfl
  have hL3 : ("\n**Domain:** " : String).data = '\n' :: ("**Domain:** " : String).data := rfl
  have hL4 : ("\n**Keywords:** " : String).data = '\n' :: ("**Keywords:** " : String).data := rfl
  have hL5 : ("\n\n" : String).data = ['\n', '\n'] := rfl
  have hR1 : ("\n# REFERENCE MATERIAL\n" : String).data = '\n' :: (headingLine ++ ['\n']) := rfl
  have hR2 : ("\n" : String).data = ['\n'] := rfl
  have hL7 : ("\n\n# PERSONA & AUDIENCE (Tenor)\n**Role:** " : String).data
      = ('\n' :: '\n' :: ("# PERSONA & AUDIENCE (Tenor)" : String).data)
        ++ ('\n' :: ("**Role:** " : String).data) := rfl
  have hL8 : ("\n**Audience:** " : String).data = '\n' :: ("**Audience:** " : String).data := rfl
  have hL9 : ("\n**Tone:** " : String).data = '\n' :: ("**Tone:** " : String).data := rfl
  have hL10 : ("\n**Stance:** " : String).data = '\n' :: ("**Stance:** " : String).data := rfl
  have hL11 : ("\n\n# FORMAT & STRUCTURE (Mode)\n**Format:** " : String).data
      = ('\n' :: '\n' :: ("# FORMAT & STRUCTURE (Mode)" : String).data)
        ++ ('\n' :: ("**Format:** " : String).data) := rfl
  have hL12 : ("\n**Structure:** " : String).data = '\n' :: ("**Structure:** " : String).data := rfl
  have hL13 : ("\n**Length:** " : String).data = '\n' :: ("**Length:** " : String).data := rfl
  have hL14 : ("\n**Directives:** " : String).data = '\n' :: ("**Directives:** " : String).data := rfl
  have hL15 : ("\n\n---\n**INSTRUCTION:**\nBased on the framework and reference material above, please execute the task.\n" : String).data
      = ('\n' :: '\n' :: ("---" : String).data)
        ++ (('\n' :: ("**INSTRUCTION:**" : String).data)
          ++ ('\n' :: (lastSeg ++ ['\n']))) := rfl
  unfold compileSFLPrompt
  rw [if_neg h, jsTrim_data]
  apply trim_chain
  · simp only [String.data_append, hL1, hL2, hL3, hL4, hL5, hR1, hR2, hL7, hL8, hL9,
      hL10, hL11, hL12, hL13, hL14, hL15, initSegsQual, frontSegs, backSegs,
      segJoin, List.cons_append, List.nil_append, List.append_assoc]
    rfl
  · exact (by decide : isJsWs '#' = false)
  · exact ⟨("Based on the framework and reference material above, please execute the task" : String).data,
      '.', rfl, by decide⟩

/-! ## Cleanliness predicates and heading counts of the variable parts -/

/-- A string with no newline character. -/
def nlFree (s : String) : Prop := ∀ c ∈ s.data, ¬ c = '\n'

instance (s : String) : Decidable (nlFree s) := by
  unfold nlFree; infer_instance

/-- The facet strings contain no newline (each audience entry separately). -/
def cleanFacets (f : SFLField) (t : SFLTenor) (m : SFLMode) : Prop :=
  nlFree f.topic ∧ nlFree f.taskType ∧ nlFree f.domainSpecifics ∧ nlFree f.keywords ∧
  nlFree t.aiPersona ∧ (∀ s ∈ t.targetAudience, nlFree s) ∧ nlFree t.desiredTone ∧
  nlFree t.interpersonalStance ∧ nlFree m.outputFormat ∧ nlFree m.rhetoricalStructure ∧
  nlFree m.lengthConstraint ∧ nlFree m.textualDirectives

instance (f : SFLField) (t : SFLTenor) (m : SFLMode) : Decidable (cleanFacets f t m) := by
  unfold cleanFacets; infer_instance

/-- An attachment whose name and type are newline-free and whose analysis has
no `# REFERENCE MATERIAL` line of its own. -/
def cleanAttachment (a : Attachment) : Prop :=
  nlFree a.name ∧ nlFree a.type ∧ headingCount (a.analysis.getD "") = 0

instance (a : Attachment) : Decidable (cleanAttachment a) := by
  unfold cleanAttachment headingCount; infer_instance

lemma countH_cons_nl (s : List Char) : countH ('\n' :: s) = countH s := by
  have h := countH_append_nl [] s
  simpa [countH_nil] using h

lemma nlFree_jsJoin (sep : String) (l : List String)
    (hsep : ∀ c ∈ sep.data, ¬ c = '\n') (h : ∀ s ∈ l, nlFree s) :
    ∀ c ∈ (jsJoin sep l).data, ¬ c = '\n' := by
  induction l with
  | nil => intro c hc; simp [jsJoin] at hc
  | cons x xs ih =>
    cases xs with
    | nil => exact h x (by simp)
    | cons y ys =>
      have hd : (jsJoin sep (x :: y :: ys)).data
          = x.data ++ sep.data ++ (jsJoin sep (y :: ys)).data := by
        simp only [jsJoin, String.data_append]
      intro c hc
      rw [hd] at hc
      rcases List.mem_append.mp hc with hc2 | hc2
      · rcases List.mem_append.mp hc2 with hc3 | hc3
        · exact h x (by simp) c hc3
        · exact hsep c hc3
      · exact ih (fun s hs => h s (by simp [hs])) c hc2

lemma countH_line (lab : String) (v : List Char)
    (hlab : ∀ c ∈ lab.data, ¬ c = '\n') (hv : ∀ c ∈ v, ¬ c = '\n')
    (hne : lab.data ++ v ≠ headingLine) :
    countH (lab.data ++ v) = 0 := by
  refine countH_eq_zero_of _ ?_ hne
  intro c hc
  rcases List.mem_append.mp hc with h1 | h2
  · exact hlab c h1
  · exact hv c h2

lemma countH_blockOf (a : Attachment) (ha : cleanAttachment a) :
    countH (blockOf a).data = 0 := by
  obtain ⟨hn, ht, hana⟩ := ha
  have hB1 : ("\n### Attachment: " : String).data
      = '\n' :: ("### Attachment: " : String).data := rfl
  have hB2 : (")\n" : String).data = [')', '\n'] := rfl
  have hshape : (blockOf a).data
      = '\n' :: ((("### Attachment: " : String).data
          ++ (a.name.data ++ ((" (" : String).data ++ (a.type.data ++ [')']))))
        ++ '\n' :: (a.analysis.getD "").data) := by
    simp only [blockOf, String.data_append, hB1, hB2, List.append_assoc,
      List.cons_append, List.nil_append]
    try rfl
  rw [hshape, countH_cons_nl, countH_append_nl]
  have hv : ∀ c ∈ (a.name.data ++ ((" (" : String).data ++ (a.type.data ++ [')']))),
      ¬ c = '\n' := by
    refine List.forall_mem_append.mpr ⟨hn, List.forall_mem_append.mpr ⟨?_,
      List.forall_mem_append.mpr ⟨ht, ?_⟩⟩⟩
    · decide
    · decide
  have hhdr := countH_line "### Attachment: " _ (by decide) hv
    (ne_of_drop_one (show ('#' : Char) ≠ ' ' by decide))
  have hana2 : countH (a.analysis.getD "").data = 0 := hana
  rw [hhdr, hana2]

lemma countH_ctx_list (l : List Attachment) (h : ∀ a ∈ l, cleanAttachment a) :
    countH (jsJoin "\n" (l.map blockOf)).data = 0 := by
  induction l with
  | nil => simpa [jsJoin] using countH_nil
  | cons a xs ih =>
    cases xs with
    | nil => simpa [jsJoin] using countH_blockOf a (h a (by simp))
    | cons b ys =>
      have hshape : (jsJoin "\n" ((a :: b :: ys).map blockOf)).data
          = (blockOf a).data ++ '\n' :: (jsJoin "\n" ((b :: ys).map blockOf)).data := by
        simp only [List.map_cons, jsJoin, String.data_append, List.append_assoc]
        try rfl
      rw [hshape, countH_append_nl, countH_blockOf a (h a (by simp)),
        ih (fun x hx => h x (by simp [hx]))]

lemma attachmentContext_countH (atts : List Attachment)
    (h : ∀ a ∈ atts.filter qualifies, cleanAttachment a) :
    countH (attachmentContext atts).data = 0 :=
  countH_ctx_list _ h

lemma attachmentContext_of_no_qual (atts : List Attachment)
    (h : atts.filter qualifies = []) : attachmentContext atts = "" := by
  unfold attachmentContext
  rw [h]
  rfl

lemma blockOf_data_ne_nil (a : Attachment) : (blockOf a).data ≠ [] := by
  intro he
  have hB1 : ("\n### Attachment: " : String).data
      = '\n' :: ("### Attachment: " : String).data := rfl
  simp only [blockOf, String.data_append, hB1, List.cons_append] at he
  exact absurd he (by simp)

lemma attachmentContext_of_qual (atts : List Attachment)
    (h : atts.filter qualifies ≠ []) : attachmentContext atts ≠ "" := by
  unfold attachmentContext
  cases hf : atts.filter qualifies with
  | nil => exact absurd hf h
  | cons a xs =>
    cases xs with
    | nil =>
      simp only [List.map_cons, List.map_nil, jsJoin]
      intro he
      exact blockOf_data_ne_nil a (by simp [he])
    | cons b ys =>
      simp only [List.map_cons, jsJoin]
      intro he
      have hd := congrArg String.data he
      rw [String.data_append, String.data_append] at hd
      have h2 : (blockOf a).data = [] := (List.append_eq_nil.mp (List.append_eq_nil.mp hd).1).1
      exact blockOf_data_ne_nil a h2

lemma segJoin_middle (xs : List (List Char)) (y : List Char) (zs : List (List Char))
    (hxs : xs ≠ []) (hzs : zs ≠ []) :
    segJoin (xs ++ y :: zs) = segJoin xs ++ '\n' :: (y ++ '\n' :: segJoin zs) := by
  induction xs with
  | nil => exact absurd rfl hxs
  | cons a r ih =>
    cases r with
    | nil =>
      cases zs with
      | nil => exact absurd rfl hzs
      | cons z zs2 => simp only [List.nil_append, List.cons_append, segJoin]
    | cons b r2 =>
      have h2 := ih (by simp)
      rw [List.cons_append] at h2
      simp only [List.cons_append, segJoin, List.append_eq]
      rw [h2]
      simp [List.append_assoc]

/-- Counterexample to C2 as stated: the claim quantifies over every
field/tenor/mode input, but a facet string containing a newline followed by
`# REFERENCE MATERIAL` injects a heading line into the compiled output even
when the attachment list is empty (where the claim requires that no
`REFERENCE MATERIAL` heading occur). -/
theorem compile_heading_injection_counterexample :
    headingCount (compileSFLPrompt ⟨"x\n# REFERENCE MATERIAL", "", "", ""⟩
      ⟨"", [], "", ""⟩ ⟨"", "", "", ""⟩ []) = 1 := by decide

/-- C2 (amended).  For facet strings free of newlines (each audience entry
separately) and qualifying attachments whose names and types are
newline-free and whose analyses contain no `# REFERENCE MATERIAL` line of
their own: with no qualifying attachment the compiled prompt has no
`# REFERENCE MATERIAL` heading line; with at least one, the heading line
appears exactly once and the compiled text contains the qualifying
attachments' blocks (`attachmentContext`, which lists them in insertion
order) verbatim as a contiguous substring. -/
theorem compile_reference_section_amended
    (f : SFLField) (t : SFLTenor) (m : SFLMode) (atts : List Attachment)
    (hfac : cleanFacets f t m)
    (hatts : ∀ a ∈ atts.filter qualifies, cleanAttachment a) :
    (atts.filter qualifies = [] →
      headingCount (compileSFLPrompt f t m atts) = 0) ∧
    (atts.filter qualifies ≠ [] →
      headingCount (compileSFLPrompt f t m atts) = 1 ∧
      ∃ pre post : List Char, (compileSFLPrompt f t m atts).data
        = pre ++ ((attachmentContext atts).data ++ post)) := by
  obtain ⟨h1, h2, h3, h4, h5, h6, h7, h8, h9, h10, h11, h12⟩ := hfac
  have hstar : ('*' : Char) ≠ '#' := by decide
  have c1 : countH ("# CONTEXT (Field)" : String).data = 0 := by decide
  have c2 : countH (("**Topic:** " : String).data ++ f.topic.data) = 0 :=
    countH_line _ _ (by decide) h1 (ne_of_headI hstar)
  have c3 : countH (("**Task:** " : String).data ++ f.taskType.data) = 0 :=
    countH_line _ _ (by decide) h2 (ne_of_headI hstar)
  have c4 : countH (("**Domain:** " : String).data ++ f.domainSpecifics.data) = 0 :=
    countH_line _ _ (by decide) h3 (ne_of_headI hstar)
  have c5 : countH (("**Keywords:** " : String).data ++ f.keywords.data) = 0 :=
    countH_line _ _ (by decide) h4 (ne_of_headI hstar)
  have c6 : countH ("# PERSONA & AUDIENCE (Tenor)" : String).data = 0 := by decide
  have c7 : countH (("**Role:** " : String).data ++ t.aiPersona.data) = 0 :=
    countH_line _ _ (by decide) h5 (ne_of_headI hstar)
  have c8 : countH (("**Audience:** " : String).data
      ++ (jsJoin ", " t.targetAudience).data) = 0 :=
    countH_line _ _ (by decide) (nlFree_jsJoin ", " t.targetAudience (by decide) h6)
      (ne_of_headI hstar)
  have c9 : countH (("**Tone:** " : String).data ++ t.desiredTone.data) = 0 :=
    countH_line _ _ (by decide) h7 (ne_of_headI hstar)
  have c10 : countH (("**Stance:** " : String).data ++ t.interpersonalStance.data) = 0 :=
    countH_line _ _ (by decide) h8 (ne_of_headI hstar)
  have c11 : countH ("# FORMAT & STRUCTURE (Mode)" : String).data = 0 := by decide
  have c12 : countH (("**Format:** " : String).data ++ m.outputFormat.data) = 0 :=
    countH_line _ _ (by decide) h9 (ne_of_headI hstar)
  have c13 : countH (("**Structure:** " : String).data ++ m.rhetoricalStructure.data) = 0 :=
    countH_line _ _ (by decide) h10 (ne_of_headI hstar)
  have c14 : countH (("**Length:** " : String).data ++ m.lengthConstraint.data) = 0 :=
    countH_line _ _ (by decide) h11 (ne_of_headI hstar)
  have c15 : countH (("**Directives:** " : String).data ++ m.textualDirectives.data) = 0 :=
    countH_line _ _ (by decide) h12 (ne_of_headI hstar)
  have c16 : countH ("---" : String).data = 0 := by decide
  have c17 : countH ("**INSTRUCTION:**" : String).data = 0 := by decide
  have c18 : countH lastSeg = 0 := by decide
  constructor
  · intro hq
    have hctx := attachmentContext_of_no_qual atts hq
    rw [headingCount, compile_data_noQual f t m atts hctx, countH_append_nl,
      countH_segJoin]
    unfold initSegsNoQual frontSegs backSegs
    simp only [List.map_append, List.map_cons, List.map_nil, List.sum_append,
      List.sum_cons, List.sum_nil]
    rw [c1, c2, c3, c4, c5, c6, c7, c8, c9, c10, c11, c12, c13, c14, c15,
      c16, c17, c18, countH_nil]
    omega
  · intro hq
    have hctx := attachmentContext_of_qual atts hq
    have hcc := attachmentContext_countH atts hatts
    refine ⟨?_, ?_⟩
    · rw [headingCount, compile_data_qual f t m atts hctx, countH_append_nl,
        countH_segJoin]
      unfold initSegsQual frontSegs backSegs
      simp only [List.map_append, List.map_cons, List.map_nil, List.sum_append,
        List.sum_cons, List.sum_nil]
      rw [c1, c2, c3, c4, c5, c6, c7, c8, c9, c10, c11, c12, c13, c14, c15,
        c16, c17, c18, countH_nil, countH_headingLine, hcc]
      omega
    · refine ⟨segJoin (frontSegs f ++ [[], [], headingLine]) ++ ['\n'],
        '\n' :: (segJoin ([[], []] ++ backSegs t m) ++ '\n' :: lastSeg), ?_⟩
      rw [compile_data_qual f t m atts hctx]
      have hlist : initSegsQual f t m (attachmentContext atts).data
          = (frontSegs f ++ [[], [], headingLine])
            ++ (attachmentContext atts).data :: ([[], []] ++ backSegs t m) := by
        unfold initSegsQual
        simp
      rw [hlist, segJoin_middle _ _ _ (by simp [frontSegs]) (by simp)]
      simp [List.append_assoc]

/-- Witness for the amended C2 at a concrete input: two qualifying
attachments and one failed attachment; the heading appears exactly once and
the joined blocks appear verbatim in the output. -/
theorem compile_reference_section_amended_witness :
    headingCount (compileSFLPrompt ⟨"cats", "", "", ""⟩
        ⟨"Helpful Assistant", ["kids"], "Warm", "Supportive"⟩
        ⟨"Markdown", "Standard", "Moderate", ""⟩
        [⟨"i1", "notes.txt", "text", "text/plain", "", some "First note", AStatus.done, none⟩,
         ⟨"i2", "x.mp3", "audio", "audio/mp3", "", some "stale", AStatus.error, some "failed"⟩,
         ⟨"i3", "pic.png", "image", "image/png", "", some "Second note", AStatus.done, none⟩]) = 1 ∧
    ∃ pre post : List Char,
      (compileSFLPrompt ⟨"cats", "", "", ""⟩
        ⟨"Helpful Assistant", ["kids"], "Warm", "Supportive"⟩
        ⟨"Markdown", "Standard", "Moderate", ""⟩
        [⟨"i1", "notes.txt", "text", "text/plain", "", some "First note", AStatus.done, none⟩,
         ⟨"i2", "x.mp3", "audio", "audio/mp3", "", some "stale", AStatus.error, some "failed"⟩,
         ⟨"i3", "pic.png", "image", "image/png", "", some "Second note", AStatus.done, none⟩]).data
      = pre ++ ((attachmentContext
          [⟨"i1", "notes.txt", "text", "text/plain", "", some "First note", AStatus.done, none⟩,
           ⟨"i2", "x.mp3", "audio", "audio/mp3", "", some "stale", AStatus.error, some "failed"⟩,
           ⟨"i3", "pic.png", "image", "image/png", "", some "Second note", AStatus.done, none⟩]).data ++ post) :=
  (compile_reference_section_amended _ _ _ _ (by decide) (by decide)).2 (by decide)

/-! ## Ingestion pipeline (src/services/geminiService.ts, GeminiService) -/

/-- An uploaded browser `File`, with the platform reads pre-resolved:
`content` is what `file.text()` resolves to and `base64` is what
`fileToBase64(file)` resolves to. -/
structure JsFile where
  name : String
  type : String
  content : String
  base64 : String
deriving DecidableEq, Repr

/-- The host platform's JSON engine over an abstract value type `J`:
`parse` models `JSON.parse` (an exception becomes `Except.error` carrying the
error message), `stringify` models `JSON.stringify(x)` and `stringifyPretty`
models `JSON.stringify(x, null, 2)`. -/
structure JsonEngine (J : Type) where
  parse : String → Except String J
  stringify : J → String
  stringifyPretty : J → String

/-- One `generateContent` request issued by a media handler: the selected
model, the inline media part (MIME type and base64 payload) and the
type-specific instruction text. -/
structure GenRequest where
  model : String
  mimeType : String
  data : String
  instruction : String
deriving DecidableEq, Repr

/-- The provider boundary: a `generateContent` call either resolves with
`response.text` (possibly absent) or rejects with an error. -/
structure Gateway where
  generate : GenRequest → Except String (Option String)

/-- The `{ analysis: string }` result record of the ingestion routines. -/
structure ProcOut where
  analysis : String
deriving DecidableEq, Repr

/-- The local `mammoth.extractRawText` capability: resolves with the
extracted text (possibly absent) or rejects. -/
def DocxOracle := JsFile → Except String (Option String)

/-- Request of `processAudio`: the faster model with the verbatim
transcription instruction. -/
def audioRequest (base64Data mimeType : String) : GenRequest :=
  ⟨"gemini-2.5-flash", mimeType, base64Data, "Transcribe this audio verbatim."⟩

/-- Method `GeminiService.processAudio`. -/
def processAudio (gw : Gateway) (base64Data mimeType : String) : Except String ProcOut :=
  (gw.generate (audioRequest base64Data mimeType)).map
    (fun t => ⟨jsOr t "No transcription generated."⟩)

/-- Request of `processVideo`: the more capable model with the audio+visual
description instruction. -/
def videoRequest (base64Data mimeType : String) : GenRequest :=
  ⟨"gemini-3-pro-preview", mimeType, base64Data,
    "Analyze this video and provide a comprehensive description of the visual and audio content, including any captions or spoken words."⟩

/-- Method `GeminiService.processVideo`. -/
def processVideo (gw : Gateway) (base64Data mimeType : String) : Except String ProcOut :=
  (gw.generate (videoRequest base64Data mimeType)).map
    (fun t => ⟨jsOr t "No analysis generated."⟩)

/-- Request of `processImage`: the more capable model with the scene
description instruction. -/
def imageRequest (base64Data mimeType : String) : GenRequest :=
  ⟨"gemini-3-pro-preview", mimeType, base64Data,
    "Analyze this image in detail. Describe the scene, objects, text, and mood."⟩

/-- Method `GeminiService.processImage`. -/
def processImage (gw : Gateway) (base64Data mimeType : String) : Except String ProcOut :=
  (gw.generate (imageRequest base64Data mimeType)).map
    (fun t => ⟨jsOr t "No analysis generated."⟩)

/-- Request of `processPDF`: the faster model with the summarization
instruction. -/
def pdfRequest (base64Data mimeType : String) : GenRequest :=
  ⟨"gemini-2.5-flash", mimeType, base64Data,
    "Analyze this document. Summarize the key points and extract the main content."⟩

/-- Method `GeminiService.processPDF`. -/
def processPDF (gw : Gateway) (base64Data mimeType : String) : Except String ProcOut :=
  (gw.generate (pdfRequest base64Data mimeType)).map
    (fun t => ⟨jsOr t "No analysis generated."⟩)

/-- Method `GeminiService.processJSON`: parse the whole file; on success the
analysis is the 2-space pretty print, on parse failure the analysis is a
literal error-description string (the exception is swallowed). -/
def processJSON {J : Type} (eng : JsonEngine J) (file : JsFile) : ProcOut :=
  match eng.parse file.content with
  | .ok json => ⟨eng.stringifyPretty json⟩
  | .error m => ⟨"Error parsing JSON: " ++ m⟩

/-- Split at every `\r\n` or `\n`, the JavaScript `text.split(/\r?\n/)`
(a lone `\r` is not a separator). -/
def splitRN : List Char → List (List Char)
  | [] => [[]]
  | c :: cs =>
    if c = '\n' then [] :: splitRN cs
    else if c = '\r' then
      if cs.headI = '\n' ∧ cs ≠ [] then [] :: splitRN cs.tail
      else pushHead c (splitRN cs)
    else pushHead c (splitRN cs)
termination_by s => s.length
decreasing_by
  all_goals simp [List.length_cons, List.length_tail]
  all_goals omega

/-- The split `text.split(/\r?\n/)` on strings. -/
def jsSplitLines (s : String) : List String := (splitRN s.data).map String.mk

/-- JavaScript `Array.prototype.map((x, idx) => ...)`, with the running
index made explicit. -/
def mapIdxFrom (f : Nat → String → String) : Nat → List String → List String
  | _, [] => []
  | i, a :: as => f i a :: mapIdxFrom f (i + 1) as

/-- Method `GeminiService.processJSONL`: split into lines, drop blank lines, parse
each remaining line independently; a parsed line contributes its compact
re-serialization, a failing line contributes the
`[Line N] Invalid JSON: <raw line>` marker (N counts the kept lines,
1-based); join with newlines.  (`file.text()` is modelled as the resolved
`content`, so the outer catch of the source has nothing left to catch.) -/
def processJSONL {J : Type} (eng : JsonEngine J) (file : JsFile) : ProcOut :=
  let lines := (jsSplitLines file.content).filter (fun line => !(jsTrim line = ""))
  let analyzedLines := mapIdxFrom (fun idx line =>
    match eng.parse line with
    | .ok json => eng.stringify json
    | .error _ => "[Line " ++ toString (idx + 1) ++ "] Invalid JSON: " ++ line) 0 lines
  ⟨jsJoin "\n" analyzedLines⟩

/-- Method `GeminiService.extractTextFromDOCX`: `result.value || ""`, and any
extraction exception degrades to `""`. -/
def extractTextFromDOCX (docx : DocxOracle) (file : JsFile) : String :=
  match docx file with
  | .ok v => jsOr v ""
  | .error _ => ""

/-- Method `GeminiService.processTextFile`: read the file as plain text verbatim. -/
def processTextFile (file : JsFile) : ProcOut := ⟨file.content⟩

/-- The word-processing MIME type handled by local DOCX extraction. -/
def docxMime : String :=
  "application/vnd.openxmlformats-officedocument.wordprocessingml.document"

/-- Method `GeminiService.processFile`: route by lowercased filename extension
first (`.json`, then `.jsonl`), then by declared MIME type (word-processing
document, then audio/video/image prefixes and the PDF MIME type through the
base64-plus-model path), and read anything else as plain text. -/
def processFile {J : Type} (gw : Gateway) (docx : DocxOracle) (eng : JsonEngine J)
    (file : JsFile) : Except String ProcOut :=
  let fileName := jsToLower file.name
  let mimeType := file.type
  if jsEndsWith fileName ".json" then .ok (processJSON eng file)
  else if jsEndsWith fileName ".jsonl" then .ok (processJSONL eng file)
  else if mimeType = docxMime then
    .ok ⟨jsOrS (extractTextFromDOCX docx file) "Empty document."⟩
  else if jsStartsWith mimeType "audio/" || jsStartsWith mimeType "video/"
      || jsStartsWith mimeType "image/" || mimeType = "application/pdf" then
    let base64Data := file.base64
    if jsStartsWith mimeType "audio/" then processAudio gw base64Data mimeType
    else if jsStartsWith mimeType "video/" then processVideo gw base64Data mimeType
    else if jsStartsWith mimeType "image/" then processImage gw base64Data mimeType
    else if mimeType = "application/pdf" then processPDF gw base64Data mimeType
    else .ok (processTextFile file)
  else .ok (processTextFile file)

/-! ## Model listing (GeminiService.listModels) -/

/-- One provider model record; only its optional `name` matters here. -/
structure ProviderModel where
  name : Option String
deriving DecidableEq, Repr

/-- Does `pat` occur as a contiguous substring? (JS `String.includes`.) -/
def substrAux (pat : List Char) : List Char → Bool
  | [] => pat.isEmpty
  | c :: t => pat.isPrefixOf (c :: t) || substrAux pat t

/-- Model of JS `s.includes(pat)`. -/
def jsIncludes (s pat : String) : Bool := substrAux pat.data s.data

/-- The hard-coded fallback list of `listModels`. -/
def fallbackModels : List String :=
  ["gemini-3-pro-preview", "gemini-2.5-flash",
   "gemini-2.5-flash-thinking-preview-09-2025"]

/-- Method `GeminiService.listModels`: iterate the provider's pager collecting
truthy names, keep the ones containing `gemini`; on any provider error
return the fallback list.  The whole provider interaction (listing plus
iteration) is the `Except` argument. -/
def listModels (r : Except String (List ProviderModel)) : List String :=
  match r with
  | .ok models =>
    let modelNames := models.filterMap (fun m =>
      match m.name with
      | some n => if n = "" then none else some n
      | none => none)
    modelNames.filter (fun name => !(name = "") && jsIncludes name "gemini")
  | .error _ => fallbackModels

/-! ## Attachment settlement (src/unnamed/part_002, handleFileUpload) -/

/-- The settlement handler of `handleFileUpload`: when the in-flight
`processFile` call settles, update exactly the record with the captured id —
to `done` with the analysis on success, to `error` with the fixed message on
failure.  Records with any other id are returned unchanged. -/
def settleUpload (id : String) (res : Except String ProcOut)
    (l : List Attachment) : List Attachment :=
  match res with
  | .ok r => l.map (fun a =>
      if a.id = id then { a with status := AStatus.done, analysis := some r.analysis } else a)
  | .error _ => l.map (fun a =>
      if a.id = id then { a with status := AStatus.error, errorMessage := some "Analysis failed" } else a)

/-- Function `removeAttachment` from src/unnamed/part_002. -/
def removeAttachment (id : String) (l : List Attachment) : List Attachment :=
  l.filter (fun a => !(a.id = id))

/-! ## Routing lemmas for processFile -/

lemma processFile_eq_json {J : Type} (gw : Gateway) (docx : DocxOracle)
    (eng : JsonEngine J) (f : JsFile)
    (h1 : jsEndsWith (jsToLower f.name) ".json" = true) :
    processFile gw docx eng f = .ok (processJSON eng f) := by
  simp [processFile, h1]

lemma processFile_eq_jsonl {J : Type} (gw : Gateway) (docx : DocxOracle)
    (eng : JsonEngine J) (f : JsFile)
    (h1 : jsEndsWith (jsToLower f.name) ".json" = false)
    (h2 : jsEndsWith (jsToLower f.name) ".jsonl" = true) :
    processFile gw docx eng f = .ok (processJSONL eng f) := by
  simp [processFile, h1, h2]

lemma processFile_eq_docx {J : Type} (gw : Gateway) (docx : DocxOracle)
    (eng : JsonEngine J) (f : JsFile)
    (h1 : jsEndsWith (jsToLower f.name) ".json" = false)
    (h2 : jsEndsWith (jsToLower f.name) ".jsonl" = false)
    (h3 : f.type = docxMime) :
    processFile gw docx eng f
      = .ok ⟨jsOrS (extractTextFromDOCX docx f) "Empty document."⟩ := by
  simp [processFile, h1, h2, h3]

lemma processFile_eq_audio {J : Type} (gw : Gateway) (docx : DocxOracle)
    (eng : JsonEngine J) (f : JsFile)
    (h1 : jsEndsWith (jsToLower f.name) ".json" = false)
    (h2 : jsEndsWith (jsToLower f.name) ".jsonl" = false)
    (h3 : ¬ f.type = docxMime)
    (h4 : jsStartsWith f.type "audio/" = true) :
    processFile gw docx eng f = processAudio gw f.base64 f.type := by
  simp [processFile, h1, h2, h3, h4]

lemma processFile_eq_video {J : Type} (gw : Gateway) (docx : DocxOracle)
    (eng : JsonEngine J) (f : JsFile)
    (h1 : jsEndsWith (jsToLower f.name) ".json" = false)
    (h2 : jsEndsWith (jsToLower f.name) ".jsonl" = false)
    (h3 : ¬ f.type = docxMime)
    (h4 : jsStartsWith f.type "audio/" = false)
    (h5 : jsStartsWith f.type "video/" = true) :
    processFile gw docx eng f = processVideo gw f.base64 f.type := by
  simp [processFile, h1, h2, h3, h4, h5]

lemma processFile_eq_image {J : Type} (gw : Gateway) (docx : DocxOracle)
    (eng : JsonEngine J) (f : JsFile)
    (h1 : jsEndsWith (jsToLower f.name) ".json" = false)
    (h2 : jsEndsWith (jsToLower f.name) ".jsonl" = false)
    (h3 : ¬ f.type = docxMime)
    (h4 : jsStartsWith f.type "audio/" = false)
    (h5 : jsStartsWith f.type "video/" = false)
    (h6 : jsStartsWith f.type "image/" = true) :
    processFile gw docx eng f = processImage gw f.base64 f.type := by
  simp [processFile, h1, h2, h3, h4, h5, h6]

lemma processFile_eq_pdf {J : Type} (gw : Gateway) (docx : DocxOracle)
    (eng : JsonEngine J) (f : JsFile)
    (h1 : jsEndsWith (jsToLower f.name) ".json" = false)
    (h2 : jsEndsWith (jsToLower f.name) ".jsonl" = false)
    (h3 : ¬ f.type = docxMime)
    (h4 : jsStartsWith f.type "audio/" = false)
    (h5 : jsStartsWith f.type "video/" = false)
    (h6 : jsStartsWith f.type "image/" = false)
    (h7 : f.type = "application/pdf") :
    processFile gw docx eng f = processPDF gw f.base64 f.type := by
  have hd : ¬ ("application/pdf" : String) = docxMime := by decide
  have ha : jsStartsWith ("application/pdf" : String) "audio/" = false := by decide
  have hv : jsStartsWith ("application/pdf" : String) "video/" = false := by decide
  have hi : jsStartsWith ("application/pdf" : String) "image/" = false := by decide
  simp [processFile, h1, h2, h7, hd, ha, hv, hi]

lemma processFile_eq_text {J : Type} (gw : Gateway) (docx : DocxOracle)
    (eng : JsonEngine J) (f : JsFile)
    (h1 : jsEndsWith (jsToLower f.name) ".json" = false)
    (h2 : jsEndsWith (jsToLower f.name) ".jsonl" = false)
    (h3 : ¬ f.type = docxMime)
    (h4 : jsStartsWith f.type "audio/" = false)
    (h5 : jsStartsWith f.type "video/" = false)
    (h6 : jsStartsWith f.type "image/" = false)
    (h7 : ¬ f.type = "application/pdf") :
    processFile gw docx eng f = .ok (processTextFile f) := by
  simp [processFile, h1, h2, h3, h4, h5, h6, h7]

/-- C3.  `processFile` routes by filename extension first and MIME type
second: `.json` (after lowercasing) wins regardless of MIME type, then
`.jsonl`, then the word-processing MIME type goes to local DOCX extraction,
then audio/video/image prefixes and the PDF MIME type go to the
base64-plus-model handlers, and everything else is read as plain text
verbatim. -/
theorem processFile_routing {J : Type} (gw : Gateway) (docx : DocxOracle)
    (eng : JsonEngine J) (f : JsFile) :
    (jsEndsWith (jsToLower f.name) ".json" = true →
      processFile gw docx eng f = .ok (processJSON eng f)) ∧
    (jsEndsWith (jsToLower f.name) ".json" = false →
      jsEndsWith (jsToLower f.name) ".jsonl" = true →
      processFile gw docx eng f = .ok (processJSONL eng f)) ∧
    (jsEndsWith (jsToLower f.name) ".json" = false →
      jsEndsWith (jsToLower f.name) ".jsonl" = false →
      f.type = docxMime →
      processFile gw docx eng f
        = .ok ⟨jsOrS (extractTextFromDOCX docx f) "Empty document."⟩) ∧
    (jsEndsWith (jsToLower f.name) ".json" = false →
      jsEndsWith (jsToLower f.name) ".jsonl" = false →
      ¬ f.type = docxMime →
      jsStartsWith f.type "audio/" = true →
      processFile gw docx eng f = processAudio gw f.base64 f.type) ∧
    (jsEndsWith (jsToLower f.name) ".json" = false →
      jsEndsWith (jsToLower f.name) ".jsonl" = false →
      ¬ f.type = docxMime →
      jsStartsWith f.type "audio/" = false →
      jsStartsWith f.type "video/" = true →
      processFile gw docx eng f = processVideo gw f.base64 f.type) ∧
    (jsEndsWith (jsToLower f.name) ".json" = false →
      jsEndsWith (jsToLower f.name) ".jsonl" = false →
      ¬ f.type = docxMime →
      jsStartsWith f.type "audio/" = false →
      jsStartsWith f.type "video/" = false →
      jsStartsWith f.type "image/" = true →
      processFile gw docx eng f = processImage gw f.base64 f.type) ∧
    (jsEndsWith (jsToLower f.name) ".json" = false →
      jsEndsWith (jsToLower f.name) ".jsonl" = false →
      ¬ f.type = docxMime →
      jsStartsWith f.type "audio/" = false →
      jsStartsWith f.type "video/" = false →
      jsStartsWith f.type "image/" = false →
      f.type = "application/pdf" →
      processFile gw docx eng f = processPDF gw f.base64 f.type) ∧
    (jsEndsWith (jsToLower f.name) ".json" = false →
      jsEndsWith (jsToLower f.name) ".jsonl" = false →
      ¬ f.type = docxMime →
      jsStartsWith f.type "audio/" = false →
      jsStartsWith f.type "video/" = false →
      jsStartsWith f.type "image/" = false →
      ¬ f.type = "application/pdf" →
      processFile gw docx eng f = .ok (processTextFile f)) := by
  refine ⟨?_, ?_, ?_, ?_, ?_, ?_, ?_, ?_⟩
  · intro h1
    exact processFile_eq_json gw docx eng f h1
  · intro h1 h2
    exact processFile_eq_jsonl gw docx eng f h1 h2
  · intro h1 h2 h3
    exact processFile_eq_docx gw docx eng f h1 h2 h3
  · intro h1 h2 h3 h4
    exact processFile_eq_audio gw docx eng f h1 h2 h3 h4
  · intro h1 h2 h3 h4 h5
    exact processFile_eq_video gw docx eng f h1 h2 h3 h4 h5
  · intro h1 h2 h3 h4 h5 h6
    exact processFile_eq_image gw docx eng f h1 h2 h3 h4 h5 h6
  · intro h1 h2 h3 h4 h5 h6 h7
    exact processFile_eq_pdf gw docx eng f h1 h2 h3 h4 h5 h6 h7
  · intro h1 h2 h3 h4 h5 h6 h7
    exact processFile_eq_text gw docx eng f h1 h2 h3 h4 h5 h6 h7

/-! ## C4: per-line isolation in processJSONL -/

lemma splitRN_nlcrFree (a : List Char)
    (h : ∀ c ∈ a, ¬ c = '\n' ∧ ¬ c = '\r') : splitRN a = [a] := by
  induction a with
  | nil => simp [splitRN]
  | cons c cs ih =>
    obtain ⟨hn, hr⟩ := h c (by simp)
    have ih2 := ih (fun x hx => h x (by simp [hx]))
    simp [splitRN, hn, hr, ih2, pushHead]

lemma splitRN_append (a b : List Char)
    (h : ∀ c ∈ a, ¬ c = '\n' ∧ ¬ c = '\r') :
    splitRN (a ++ '\n' :: b) = a :: splitRN b := by
  induction a with
  | nil => simp [splitRN]
  | cons c cs ih =>
    obtain ⟨hn, hr⟩ := h c (by simp)
    have ih2 := ih (fun x hx => h x (by simp [hx]))
    simp [splitRN, hn, hr, ih2, pushHead]

/-- C4.  `processJSONL` parses each non-empty line independently: for a
3-line file whose second line fails to parse, the analysis is the compact
re-serialization of lines 1 and 3 around a literal
`[Line 2] Invalid JSON: <raw line>` marker, joined by newlines — the
function is total, so the failing line aborts nothing. -/
theorem processJSONL_partial_success {J : Type} (eng : JsonEngine J)
    (name mime b64 l1 l2 l3 : String) (j1 j3 : J) (e : String)
    (hc1 : ∀ c ∈ l1.data, ¬ c = '\n' ∧ ¬ c = '\r')
    (hc2 : ∀ c ∈ l2.data, ¬ c = '\n' ∧ ¬ c = '\r')
    (hc3 : ∀ c ∈ l3.data, ¬ c = '\n' ∧ ¬ c = '\r')
    (ht1 : ¬ jsTrim l1 = "") (ht2 : ¬ jsTrim l2 = "") (ht3 : ¬ jsTrim l3 = "")
    (hp1 : eng.parse l1 = .ok j1) (hp2 : eng.parse l2 = .error e)
    (hp3 : eng.parse l3 = .ok j3) :
    processJSONL eng ⟨name, mime, l1 ++ "\n" ++ l2 ++ "\n" ++ l3, b64⟩
      = ⟨eng.stringify j1 ++ "\n" ++ ("[Line 2] Invalid JSON: " ++ l2)
          ++ "\n" ++ eng.stringify j3⟩ := by
  have hsh : (l1 ++ "\n" ++ l2 ++ "\n" ++ l3 : String).data
      = l1.data ++ '\n' :: (l2.data ++ '\n' :: l3.data) := by
    simp only [String.data_append, List.append_assoc]
    try rfl
  have hsplit : jsSplitLines (l1 ++ "\n" ++ l2 ++ "\n" ++ l3) = [l1, l2, l3] := by
    unfold jsSplitLines
    rw [hsh, splitRN_append _ _ hc1, splitRN_append _ _ hc2, splitRN_nlcrFree _ hc3]
    rfl
  simp only [processJSONL]
  rw [hsplit]
  have hfil : [l1, l2, l3].filter (fun line => !(jsTrim line = "")) = [l1, l2, l3] := by
    simp [ht1, ht2, ht3]
  rw [hfil]
  simp only [mapIdxFrom, hp1, hp2, hp3]
  refine congrArg ProcOut.mk (String.ext ?_)
  have h2d : (toString (2 : Nat) : String).data = ['2'] := rfl
  simp [jsJoin, String.data_append, List.append_assoc, h2d]

/-- A concrete JSON engine for witnesses: accepts exactly the text `[1]`. -/
def engW : JsonEngine String :=
  ⟨fun s => if s = "[1]" then .ok "one" else .error "Unexpected token",
   fun j => j, fun j => j ++ j⟩

/-- Witness for C4 at a concrete 3-line file whose middle line is invalid. -/
theorem processJSONL_partial_success_witness :
    processJSONL engW ⟨"data.jsonl", "text/plain", "[1]" ++ "\n" ++ "oops" ++ "\n" ++ "[1]", ""⟩
      = ⟨engW.stringify "one" ++ "\n" ++ ("[Line 2] Invalid JSON: " ++ "oops")
          ++ "\n" ++ engW.stringify "one"⟩ :=
  processJSONL_partial_success engW "data.jsonl" "text/plain" "" "[1]" "oops" "[1]"
    "one" "one" "Unexpected token"
    (by decide) (by decide) (by decide) (by decide) (by decide) (by decide)
    rfl rfl rfl

/-- C5.  Ingesting a `.json` file whose content fails to parse does not
fail: `processFile` returns `ok` with a literal error-description analysis,
so the settlement handler marks the attachment `done` (with that text as its
analysis), never `error`. -/
theorem processJSON_invalid_done {J : Type} (gw : Gateway) (docx : DocxOracle)
    (eng : JsonEngine J) (f : JsFile) (msg : String)
    (hname : jsEndsWith (jsToLower f.name) ".json" = true)
    (hbad : eng.parse f.content = .error msg) :
    processFile gw docx eng f = .ok ⟨"Error parsing JSON: " ++ msg⟩ ∧
    ∀ (id : String) (l : List Attachment) (a : Attachment),
      a ∈ settleUpload id (processFile gw docx eng f) l → a.id = id →
      a.status = AStatus.done ∧ a.analysis = some ("Error parsing JSON: " ++ msg) := by
  have h1 : processFile gw docx eng f = .ok ⟨"Error parsing JSON: " ++ msg⟩ := by
    rw [processFile_eq_json gw docx eng f hname]
    unfold processJSON
    rw [hbad]
  refine ⟨h1, ?_⟩
  intro id l a ha hid
  rw [h1] at ha
  unfold settleUpload at ha
  obtain ⟨b, hb, hab⟩ := List.mem_map.mp ha
  by_cases hbid : b.id = id
  · rw [if_pos hbid] at hab
    rw [← hab]
    exact ⟨rfl, rfl⟩
  · rw [if_neg hbid] at hab
    rw [← hab] at hid
    exact absurd hid hbid

/-- Witness for C5: a malformed `.json` upload settles as `done` with the
error text as analysis. -/
theorem processJSON_invalid_done_witness :
    settleUpload "a1"
        (processFile ⟨fun _ => .ok (some "x")⟩ (fun _ => .ok (some "doc")) engW
          ⟨"bad.JSON", "text/plain", "nope", ""⟩)
        [⟨"a1", "bad.JSON", "text", "text/plain", "", none, AStatus.processing, none⟩]
      = [⟨"a1", "bad.JSON", "text", "text/plain", "",
          some ("Error parsing JSON: " ++ "Unexpected token"), AStatus.done, none⟩] := by
  have h := processJSON_invalid_done ⟨fun _ => .ok (some "x")⟩ (fun _ => .ok (some "doc")) engW
    ⟨"bad.JSON", "text/plain", "nope", ""⟩ "Unexpected token" (by decide) rfl
  rw [h.1]
  decide

/-- C6.  Whenever the provider's model-listing interaction fails, however it
fails, `listModels` returns exactly the hard-coded 3-element fallback list —
the error never propagates. -/
theorem listModels_fallback (e : String) :
    listModels (Except.error e)
      = ["gemini-3-pro-preview", "gemini-2.5-flash",
         "gemini-2.5-flash-thinking-preview-09-2025"]
    ∧ listModels (Except.error e) = fallbackModels := ⟨rfl, rfl⟩

lemma map_if_id_eq_self (f : Attachment → Attachment) (id : String)
    (l : List Attachment) (h : ∀ a ∈ l, ¬ a.id = id) :
    l.map (fun a => if a.id = id then f a else a) = l := by
  induction l with
  | nil => rfl
  | cons a as ih =>
    simp only [List.map_cons, if_neg (h a (by simp)),
      ih (fun x hx => h x (by simp [hx]))]

/-- C7.  If an attachment is removed before its in-flight ingestion call
settles, the settlement handler finds no record with its id and mutates
nothing: settling over the post-removal list is the identity, whichever way
the call settled, and no error is raised (the handler is total). -/
theorem settle_after_remove_noop (id : String) (res : Except String ProcOut)
    (l : List Attachment) :
    settleUpload id res (removeAttachment id l) = removeAttachment id l := by
  have h : ∀ a ∈ removeAttachment id l, ¬ a.id = id := by
    intro a ha
    unfold removeAttachment at ha
    have := List.mem_filter.mp ha
    simpa using this.2
  unfold settleUpload
  cases res with
  | ok r => exact map_if_id_eq_self _ id _ h
  | error e => exact map_if_id_eq_self _ id _ h

/-- C8.  The media handlers implement a fixed cost/quality policy: audio and
PDF requests go to the faster `gemini-2.5-flash`, video and image requests
to the more capable `gemini-3-pro-preview`, each with its type-specific
instruction; and `processFile` dispatches each media MIME type to the
corresponding handler on the file's base64 payload. -/
theorem media_model_selection (d m : String) :
    (audioRequest d m).model = "gemini-2.5-flash" ∧
    (audioRequest d m).instruction = "Transcribe this audio verbatim." ∧
    (pdfRequest d m).model = "gemini-2.5-flash" ∧
    (pdfRequest d m).instruction
      = "Analyze this document. Summarize the key points and extract the main content." ∧
    (videoRequest d m).model = "gemini-3-pro-preview" ∧
    (videoRequest d m).instruction
      = "Analyze this video and provide a comprehensive description of the visual and audio content, including any captions or spoken words." ∧
    (imageRequest d m).model = "gemini-3-pro-preview" ∧
    (imageRequest d m).instruction
      = "Analyze this image in detail. Describe the scene, objects, text, and mood." ∧
    (∀ (J : Type) (gw : Gateway) (docx : DocxOracle) (eng : JsonEngine J) (f : JsFile),
      jsEndsWith (jsToLower f.name) ".json" = false →
      jsEndsWith (jsToLower f.name) ".jsonl" = false →
      ¬ f.type = docxMime →
      (jsStartsWith f.type "audio/" = true →
        processFile gw docx eng f
          = (gw.generate (audioRequest f.base64 f.type)).map
              (fun t => ⟨jsOr t "No transcription generated."⟩)) ∧
      (jsStartsWith f.type "audio/" = false →
        jsStartsWith f.type "video/" = true →
        processFile gw docx eng f
          = (gw.generate (videoRequest f.base64 f.type)).map
              (fun t => ⟨jsOr t "No analysis generated."⟩)) ∧
      (jsStartsWith f.type "audio/" = false →
        jsStartsWith f.type "video/" = false →
        jsStartsWith f.type "image/" = true →
        processFile gw docx eng f
          = (gw.generate (imageRequest f.base64 f.type)).map
              (fun t => ⟨jsOr t "No analysis generated."⟩)) ∧
      (jsStartsWith f.type "audio/" = false →
        jsStartsWith f.type "video/" = false →
        jsStartsWith f.type "image/" = false →
        f.type = "application/pdf" →
        processFile gw docx eng f
          = (gw.generate (pdfRequest f.base64 f.type)).map
              (fun t => ⟨jsOr t "No analysis generated."⟩))) := by
  refine ⟨rfl, rfl, rfl, rfl, rfl, rfl, rfl, rfl, ?_⟩
  intro J gw docx eng f h1 h2 h3
  refine ⟨?_, ?_, ?_, ?_⟩
  · intro h4
    exact processFile_eq_audio gw docx eng f h1 h2 h3 h4
  · intro h4 h5
    exact processFile_eq_video gw docx eng f h1 h2 h3 h4 h5
  · intro h4 h5 h6
    exact processFile_eq_image gw docx eng f h1 h2 h3 h4 h5 h6
  · intro h4 h5 h6 h7
    exact processFile_eq_pdf gw docx eng f h1 h2 h3 h4 h5 h6 h7

/-! ## Persisted store (src/unnamed/part_004 and src/types.ts) -/

/-- Structure `PromptSFL` from src/types.ts (recursive through `versions`). -/
structure PromptSFL where
  id : String
  title : String
  description : String
  createdAt : Nat
  updatedAt : Nat
  sflField : SFLField
  sflTenor : SFLTenor
  sflMode : SFLMode
  attachments : Option (List Attachment)
  compiledPrompt : Option String
  versions : Option (List PromptSFL)

/-- Model of `Partial<PromptSFL>`: each field either absent or present with a value
(for the optional TS fields the value itself is optional). -/
structure PromptUpdates where
  id : Option String
  title : Option String
  description : Option String
  createdAt : Option Nat
  updatedAt : Option Nat
  sflField : Option SFLField
  sflTenor : Option SFLTenor
  sflMode : Option SFLMode
  attachments : Option (Option (List Attachment))
  compiledPrompt : Option (Option String)
  versions : Option (Option (List PromptSFL))

/-- The merge `\x7b ...p, ...updates, updatedAt: Date.now() \x7d`: every field present in
`updates` overrides `p`'s, and the trailing `updatedAt` entry then overrides
both — in particular an `updatedAt` carried inside `updates` is discarded. -/
def mergePrompt (p : PromptSFL) (u : PromptUpdates) (now : Nat) : PromptSFL :=
  { id := u.id.getD p.id
    title := u.title.getD p.title
    description := u.description.getD p.description
    createdAt := u.createdAt.getD p.createdAt
    updatedAt := now
    sflField := u.sflField.getD p.sflField
    sflTenor := u.sflTenor.getD p.sflTenor
    sflMode := u.sflMode.getD p.sflMode
    attachments := u.attachments.getD p.attachments
    compiledPrompt := u.compiledPrompt.getD p.compiledPrompt
    versions := u.versions.getD p.versions }

/-- Enum `Theme` from src/types.ts. -/
inductive Theme where
  | light
  | dark
deriving DecidableEq, Repr

/-- The store's state (src/types.ts `AppState`, data fields). -/
structure AppState where
  prompts : List PromptSFL
  activePromptId : Option String
  theme : Theme
  primaryModel : String
  personaModel : String
  availableModels : List String

/-- Function `addPrompt` from src/unnamed/part_004. -/
def addPrompt (p : PromptSFL) (s : AppState) : AppState :=
  { s with prompts := p :: s.prompts }

/-- Function `updatePrompt` from src/unnamed/part_004: map over the prompts, merging
the updates into the prompt whose id matches and refreshing its
`updatedAt` to the mutation time. -/
def updatePrompt (id : String) (updates : PromptUpdates) (now : Nat)
    (s : AppState) : AppState :=
  { s with prompts :=
      s.prompts.map (fun p => if p.id = id then mergePrompt p updates now else p) }

/-- Function `deletePrompt` from src/unnamed/part_004: drop the prompts with the
given id and reset `activePromptId` to null when it pointed at it. -/
def deletePrompt (id : String) (s : AppState) : AppState :=
  { s with
    prompts := s.prompts.filter (fun p => !(p.id = id)),
    activePromptId := if s.activePromptId = some id then none else s.activePromptId }

lemma get_map_eq {α β : Type} (f : α → β) (l : List α) (i : Nat)
    (h1 : i < l.length) (h2 : i < (l.map f).length) :
    (l.map f).get ⟨i, h2⟩ = f (l.get ⟨i, h1⟩) := by
  simp [List.get_eq_getElem, List.getElem_map]

/-- C9.  `updatePrompt` keeps the list's length, leaves every prompt with a
different id unchanged, and sets the matching prompt's `updatedAt` to the
mutation time — unconditionally, so any `updatedAt` carried in the update
object is overridden. -/
theorem updatePrompt_refreshes_updatedAt (s : AppState) (id : String)
    (u : PromptUpdates) (now : Nat) :
    (updatePrompt id u now s).prompts.length = s.prompts.length ∧
    ∀ (i : Nat) (h1 : i < s.prompts.length)
      (h2 : i < (updatePrompt id u now s).prompts.length),
      ((s.prompts.get ⟨i, h1⟩).id ≠ id →
        (updatePrompt id u now s).prompts.get ⟨i, h2⟩ = s.prompts.get ⟨i, h1⟩) ∧
      ((s.prompts.get ⟨i, h1⟩).id = id →
        ((updatePrompt id u now s).prompts.get ⟨i, h2⟩).updatedAt = now) := by
  refine ⟨by simp [updatePrompt], ?_⟩
  intro i h1 h2
  have hm : (updatePrompt id u now s).prompts.get ⟨i, h2⟩
      = if (s.prompts.get ⟨i, h1⟩).id = id
        then mergePrompt (s.prompts.get ⟨i, h1⟩) u now
        else s.prompts.get ⟨i, h1⟩ := by
    simp [updatePrompt, List.get_eq_getElem, List.getElem_map]
  constructor
  · intro hne
    rw [hm, if_neg hne]
  · intro heq
    rw [hm, if_pos heq]
    rfl

/-- C10.  `deletePrompt` removes exactly the prompts with the given id
(membership characterization plus order preservation), and afterwards the
active id never equals the deleted id: it is reset to null when it matched
and kept otherwise. -/
theorem deletePrompt_spec (s : AppState) (id : String) :
    (∀ p, p ∈ (deletePrompt id s).prompts ↔ (p ∈ s.prompts ∧ p.id ≠ id)) ∧
    List.Sublist (deletePrompt id s).prompts s.prompts ∧
    (deletePrompt id s).activePromptId ≠ some id ∧
    (s.activePromptId = some id → (deletePrompt id s).activePromptId = none) ∧
    (s.activePromptId ≠ some id →
      (deletePrompt id s).activePromptId = s.activePromptId) := by
  refine ⟨?_, ?_, ?_, ?_, ?_⟩
  · intro p
    simp [deletePrompt, List.mem_filter]
  · simpa [deletePrompt] using List.filter_sublist s.prompts
  · by_cases h : s.activePromptId = some id
    · simp [deletePrompt, h]
    · simp [deletePrompt, h]
  · intro h
    simp [deletePrompt, h]
  · intro h
    simp [deletePrompt, h]

/-- Concrete prompts and store state for the store witnesses. -/
def promptA : PromptSFL :=
  ⟨"a", "title a", "desc a", 1, 1, ⟨"", "", "", ""⟩, ⟨"", [], "", ""⟩,
   ⟨"", "", "", ""⟩, none, none, none⟩

def promptB : PromptSFL :=
  ⟨"b", "title b", "desc b", 2, 2, ⟨"", "", "", ""⟩, ⟨"", [], "", ""⟩,
   ⟨"", "", "", ""⟩, none, none, none⟩

def stW : AppState := ⟨[promptA, promptB], some "a", Theme.light, "m", "m", []⟩

def updW : PromptUpdates :=
  ⟨none, some "new title", none, none, some 999, none, none, none, none, none, none⟩

/-- Witness for C9: updating prompt `a` at time 5 (with a stale
`updatedAt := 999` inside the update object) stamps 5 on prompt `a` and
leaves prompt `b` untouched. -/
theorem updatePrompt_refreshes_updatedAt_witness :
    ((updatePrompt "a" updW 5 stW).prompts.get ⟨0, by decide⟩).updatedAt = 5 ∧
    (updatePrompt "a" updW 5 stW).prompts.get ⟨1, by decide⟩
      = stW.prompts.get ⟨1, by decide⟩ :=
  ⟨((updatePrompt_refreshes_updatedAt stW "a" updW 5).2 0 (by decide) (by decide)).2
      (by decide),
   ((updatePrompt_refreshes_updatedAt stW "a" updW 5).2 1 (by decide) (by decide)).1
      (by decide)⟩

/-- Witness for C10: deleting prompt `a` clears the active id, keeps
prompt `b` and drops prompt `a`. -/
theorem deletePrompt_spec_witness :
    (deletePrompt "a" stW).activePromptId = none ∧
    promptB ∈ (deletePrompt "a" stW).prompts ∧
    ¬ promptA ∈ (deletePrompt "a" stW).prompts :=
  ⟨(deletePrompt_spec stW "a").2.2.2.1 rfl,
   ((deletePrompt_spec stW "a").1 promptB).mpr
      ⟨List.Mem.tail promptA (List.Mem.head _), by decide⟩,
   fun hmem => (by decide : ¬ ¬ promptA.id = "a")
      (((deletePrompt_spec stW "a").1 promptA).mp hmem).2⟩

/-- A concrete gateway for witnesses. -/
def gwW : Gateway := ⟨fun _ => .ok (some "model response")⟩

/-- A concrete DOCX extraction oracle for witnesses. -/
def docxW : DocxOracle := fun _ => .ok (some "doc text")

/-- Witness for C3: a file named `DATA.Json` with an audio MIME type is
still routed to the JSON parser (extension beats MIME type). -/
theorem processFile_routing_witness :
    processFile gwW docxW engW ⟨"DATA.Json", "audio/mp3", "[1]", "b64"⟩
      = .ok (processJSON engW ⟨"DATA.Json", "audio/mp3", "[1]", "b64"⟩) :=
  (processFile_routing gwW docxW engW ⟨"DATA.Json", "audio/mp3", "[1]", "b64"⟩).1
    (by decide)

/-- Witness for C8: an `audio/mp3` upload is dispatched to the audio
handler, i.e. a `gemini-2.5-flash` transcription request on its base64
payload. -/
theorem media_model_selection_witness :
    processFile gwW docxW engW ⟨"x.mp3", "audio/mp3", "", "b64"⟩
      = (gwW.generate (audioRequest "b64" "audio/mp3")).map
          (fun t => ⟨jsOr t "No transcription generated."⟩) :=
  (((media_model_selection "b64" "audio/mp3").2.2.2.2.2.2.2.2 String gwW docxW engW
      ⟨"x.mp3", "audio/mp3", "", "b64"⟩ (by decide) (by decide) (by decide)).1
    (by decide))
